import Mathlib

/-!
Formal model of `ffheic.py`, a command-line utility that converts HEIC
images to PNG or JPG by invoking `ffmpeg` once per discovered file.

The script's effects are made explicit:
  * the filesystem is a snapshot `FS` of regular-file paths and directory
    paths, a path being its list of components;
  * each subprocess invocation, printed line and directory creation is an
    `Event` in the trace the modelled `main` returns, together with the
    process exit status;
  * `datetime.now().isoformat()` is abstracted to a fixed timestamp string
    carried in the run context.
-/

namespace FFheic

/-- A resolved filesystem path, as its list of components (so
`["pics", "a.heic"]` stands for `/pics/a.heic`). -/
abbrev FsPath := List String

/-- A snapshot of the filesystem: the regular files and the directories. -/
structure FS where
  files : List FsPath
  dirs : List FsPath

/-- Final component of a path (Python `Path.name`). -/
def fileName (p : FsPath) : String := p.getLast?.getD ""

/-- Match of the final component against the pattern `*.heic` as
`Path.rglob` does on a case-sensitive filesystem: `*` matches any (possibly
empty) run of characters, so a name matches exactly when it ends with the
literal, case-sensitive text `.heic`, compared character by character. -/
def matchesHeic (p : FsPath) : Bool := List.isSuffixOf ".heic".data (fileName p).data

/-- Path `p` lies strictly below `root`, at any depth, as the recursive walk
of `Path.rglob` visits entries. -/
def strictlyUnder (root p : FsPath) : Bool :=
  root.isPrefixOf p && decide (root.length < p.length)

/-- Model of `input_path.rglob("*.heic")`: every entry of the filesystem,
file or directory, strictly under `root` whose final component matches the
pattern `*.heic`. -/
def rglobHeic (fs : FS) (root : FsPath) : List FsPath :=
  (fs.files ++ fs.dirs).filter (fun p => strictlyUnder root p && matchesHeic p)

/-- Model of `collect_heic_files` of `ffheic.py`: an input that is a regular
file is returned as a singleton, with no extension check; otherwise the
input is walked recursively for `*.heic` entries and only those that are
regular files are kept. -/
def collect_heic_files (fs : FS) (input_path : FsPath) : List FsPath :=
  if fs.files.contains input_path then [input_path]
  else (rglobHeic fs input_path).filter (fun p => fs.files.contains p)

/-- Characters of Python `PurePath.stem` on a file name: the name without
its suffix, where the suffix starts at the last dot provided that dot is
neither the first nor the last character of the name. -/
def stemChars (cs : List Char) : List Char :=
  let rs := cs.reverse
  match rs.findIdx? (fun c => c == '.') with
  | none => cs
  | some j => if 0 < j ∧ j + 1 < cs.length then (rs.drop (j + 1)).reverse else cs

/-- Python `PurePath.stem` of a file name. -/
def stem (name : String) : String := String.mk (stemChars name.data)

/-- Model of `prepare_output_dir`: the `converted` directory next to the
first discovered source file.  The actual `mkdir(parents=True,
exist_ok=True)` call is an event of the run trace. -/
def prepare_output_dir (first_source : FsPath) : FsPath :=
  first_source.dropLast ++ ["converted"]

/-- Python `%`-formatting restricted to the `%s` placeholders this script
uses: each `%s` consumes one argument in order; surplus or missing
arguments raise `TypeError`, modelled as `none`. -/
def percentFormat : List Char → List String → Option (List Char)
  | [], [] => some []
  | [], _ :: _ => none
  | '%' :: 's' :: _, [] => none
  | '%' :: 's' :: rest, a :: as => (percentFormat rest as).map (fun t => a.data ++ t)
  | c :: rest, as => (percentFormat rest as).map (fun t => c :: t)

/-- Model of `log` of `ffheic.py`: the lines the call prints to stdout.
In the source the `print` sits inside the `if args:` guard, so a call with
no substitution arguments prints nothing at all.  With arguments, the
message is `%`-formatted; if formatting raises, the fallback concatenates
the raw message with the space-joined arguments.  `ts` stands for
`datetime.now().isoformat()`. -/
def log (ts level message : String) (args : List String) : List String :=
  if args.isEmpty then []
  else
    let body :=
      match percentFormat message.data args with
      | some cs => String.mk cs
      | none => message ++ " " ++ String.intercalate " " args
    [ts ++ " " ++ level ++ " " ++ body]

/-- The ffmpeg argument vector `convert_file` builds and passes to
`subprocess.run`: for `png` the base flags only; for any other extension
(only `jpg` reaches here) the base flags plus the video codec `libx264` and
pixel format `yuv420p` before the destination. -/
def convert_cmd (ffmpeg_path source destination output_ext : String) : List String :=
  if output_ext == "png" then
    [ffmpeg_path, "-hide_banner", "-loglevel", "error", "-y", "-i", source, destination]
  else
    [ffmpeg_path, "-hide_banner", "-loglevel", "error", "-y", "-i", source,
      "-c:v", "libx264", "-pix_fmt", "yuv420p", destination]

/-- The `choices` list `parse_args` gives argparse for the output option. -/
def output_choices : List String := ["png", "jpg"]

/-- Model of Python `str.lower`, character by character. -/
def lowerStr (s : String) : String := String.mk (s.data.map Char.toLower)

/-- Model of the `--output` handling in `parse_args`: argparse rejects any
value outside `choices` by exact string comparison with a usage error
(process exit status 2); an accepted value is then stored lower-cased
(`args.output.lower()`). -/
def parse_args_output (raw : String) : Except Nat String :=
  if raw ∈ output_choices then Except.ok (lowerStr raw) else Except.error 2

/-- An observable effect of a run: the capability-probe subprocess
(`ffmpeg -codecs`), a line printed to stdout, a line printed to stderr, a
directory creation with its `parents` and `exist_ok` flags, or a conversion
subprocess with its argument vector, source and destination. -/
inductive Event where
  | probeCall : Event
  | out : String → Event
  | errOut : String → Event
  | mkdirCall : FsPath → Bool → Bool → Event
  | convertCall : List String → FsPath → FsPath → Event
deriving DecidableEq

/-- True of the directory-creation events only. -/
def Event.isMkdir : Event → Bool
  | Event.probeCall => false
  | Event.out _ => false
  | Event.errOut _ => false
  | Event.mkdirCall _ _ _ => true
  | Event.convertCall _ _ _ => false

/-- The run context, everything the environment decides: `fs` the
filesystem; `input_path` and `output_ext` the validated configuration;
`ffmpeg_path` the result of `shutil.which("ffmpeg")`; `has_heif` the
boolean `ffmpeg_has_heif_support` returns (`false` both when the codec
markers are absent and when the probe raises); `ok f` whether the
conversion subprocess for source `f` exits with status 0; `excMsg f` the
text of the `CalledProcessError` raised otherwise; `ts` the fixed
timestamp standing for `datetime.now().isoformat()`. -/
structure Ctx where
  fs : FS
  input_path : FsPath
  output_ext : String
  ffmpeg_path : Option String
  has_heif : Bool
  ok : FsPath → Bool
  excMsg : FsPath → String
  ts : String

/-- Python `str(path)` for a resolved absolute path. -/
def pathStr (p : FsPath) : String := String.intercalate "/" ("" :: p)

/-- Destination path of a source file: `out_dir / (stem + "." + output_ext)`,
as `main` builds `dest_name` and `destination`. -/
def destFor (c : Ctx) (out_dir f : FsPath) : FsPath :=
  out_dir ++ [stem (fileName f) ++ "." ++ c.output_ext]

/-- Argument vector of the conversion subprocess for one source file. -/
def cmdFor (c : Ctx) (fp : String) (out_dir f : FsPath) : List String :=
  convert_cmd fp (pathStr f) (pathStr (destFor c out_dir f)) c.output_ext

/-- Events of one iteration of the loop in `main`: `convert_file` logs the
"Converting" line and runs the subprocess; the caller logs "Converted" on
success and catches `CalledProcessError`, logging "Failed to convert", on
failure. -/
def convertEvents (c : Ctx) (fp : String) (out_dir f : FsPath) : List Event :=
  ((log c.ts "INFO" "Converting: %s → %s" [pathStr f, pathStr (destFor c out_dir f)]).map
      Event.out)
    ++ [Event.convertCall (cmdFor c fp out_dir f) f (destFor c out_dir f)]
    ++ (if c.ok f then
          (log c.ts "INFO" "Converted: %s → %s"
            [pathStr f, pathStr (destFor c out_dir f)]).map Event.out
        else
          (log c.ts "ERROR" "Failed to convert %s: %s"
            [pathStr f, c.excMsg f]).map Event.out)

/-- The per-file loop of `main`, strictly sequential in discovery order. -/
def runConversions (c : Ctx) (fp : String) (out_dir : FsPath) : List FsPath → List Event
  | [] => []
  | f :: rest => convertEvents c fp out_dir f ++ runConversions c fp out_dir rest

/-- Model of `main` of `ffheic.py`: its trace of observable events and its
exit status.  `raise SystemExit(msg)` prints the message to stderr and
exits with status 1; falling off the end of `main` exits with status 0. -/
def run (c : Ctx) : List Event × Nat :=
  match c.ffmpeg_path with
  | none => ([Event.errOut "ffmpeg not found on PATH. Install ffmpeg and try again."], 1)
  | some fp =>
    let probe := [Event.probeCall]
    let warn := if c.has_heif then []
      else (log c.ts "WARNING" "ffmpeg was found but may lack HEIC/HEIF support." []).map
        Event.out
    match collect_heic_files c.fs c.input_path with
    | [] => (probe ++ warn ++ [Event.out "No HEIC files found to convert."], 0)
    | f0 :: rest =>
      (probe ++ warn
        ++ [Event.mkdirCall (prepare_output_dir f0) true true]
        ++ (log c.ts "INFO" "=== Conversion started: %s ===" [c.ts]).map Event.out
        ++ runConversions c fp (prepare_output_dir f0) (f0 :: rest)
        ++ (log c.ts "INFO" "=== Conversion finished: %s ===" [c.ts]).map Event.out, 0)

/-- Example filesystem: a directory `d` holding `a.heic`, `b.HEIC` (wrong
case), `c.txt`, and a subdirectory `sub` holding `e.heic`. -/
def exampleFS : FS where
  files := [["d", "a.heic"], ["d", "b.HEIC"], ["d", "c.txt"], ["d", "sub", "e.heic"]]
  dirs := [["d"], ["d", "sub"]]

/-- Example run context: a directory with two HEIC files, JPEG output, the
probe reporting no HEIC support, and the conversion of `a.heic` failing. -/
def twoCtx : Ctx where
  fs := { files := [["d", "a.heic"], ["d", "b.heic"]], dirs := [["d"]] }
  input_path := ["d"]
  output_ext := "jpg"
  ffmpeg_path := some "ffmpeg-path"
  has_heif := false
  ok := fun f => f != ["d", "a.heic"]
  excMsg := fun _ => "Command returned non-zero exit status 1."
  ts := "TS"

/-- Example run context whose discovery set is empty: the input directory
contains no `.heic` entry. -/
def emptyCtx : Ctx where
  fs := { files := [["d", "c.txt"]], dirs := [["d"]] }
  input_path := ["d"]
  output_ext := "png"
  ffmpeg_path := some "ffmpeg-path"
  has_heif := true
  ok := fun _ => true
  excMsg := fun _ => ""
  ts := "TS"

/-- Example run context in which `shutil.which("ffmpeg")` returns nothing. -/
def noFfmpegCtx : Ctx where
  fs := { files := [["d", "a.heic"]], dirs := [["d"]] }
  input_path := ["d"]
  output_ext := "png"
  ffmpeg_path := none
  has_heif := false
  ok := fun _ => true
  excMsg := fun _ => ""
  ts := "TS"

/-!  Helper lemmas: what `log` prints for each message of the script, the
shape of the trace once discovery is non-empty, and what events the
per-file loop can produce. -/

theorem log_failed_eq (ts a b : String) :
    log ts "ERROR" "Failed to convert %s: %s" [a, b] =
      [ts ++ " ERROR " ++ ("Failed to convert " ++ a ++ ": " ++ b)] := by
  simp [log, percentFormat, String.ext_iff, String.data_append]

theorem log_converted_eq (ts a b : String) :
    log ts "INFO" "Converted: %s → %s" [a, b] =
      [ts ++ " INFO " ++ ("Converted: " ++ a ++ " → " ++ b)] := by
  simp [log, percentFormat, String.ext_iff, String.data_append]

theorem log_started_eq (ts a : String) :
    log ts "INFO" "=== Conversion started: %s ===" [a] =
      [ts ++ " INFO " ++ ("=== Conversion started: " ++ a ++ " ===")] := by
  simp [log, percentFormat, String.ext_iff, String.data_append]

theorem log_finished_eq (ts a : String) :
    log ts "INFO" "=== Conversion finished: %s ===" [a] =
      [ts ++ " INFO " ++ ("=== Conversion finished: " ++ a ++ " ===")] := by
  simp [log, percentFormat, String.ext_iff, String.data_append]

theorem run_snd_eq_zero (c : Ctx) (fp : String) (hfp : c.ffmpeg_path = some fp) :
    (run c).2 = 0 := by
  rcases h : collect_heic_files c.fs c.input_path with _ | ⟨f0, rest⟩ <;> simp [run, hfp, h]

theorem run_trace_cons (c : Ctx) (fp : String) (f0 : FsPath) (rest : List FsPath)
    (hfp : c.ffmpeg_path = some fp)
    (hcollect : collect_heic_files c.fs c.input_path = f0 :: rest) :
    (run c).1 = Event.probeCall ::
      ((if c.has_heif then [] else
          (log c.ts "WARNING" "ffmpeg was found but may lack HEIC/HEIF support." []).map
            Event.out)
        ++ Event.mkdirCall (prepare_output_dir f0) true true ::
          Event.out (c.ts ++ " INFO " ++ ("=== Conversion started: " ++ c.ts ++ " ===")) ::
            (runConversions c fp (prepare_output_dir f0) (f0 :: rest)
              ++ [Event.out
                    (c.ts ++ " INFO " ++ ("=== Conversion finished: " ++ c.ts ++ " ==="))])) := by
  simp [run, hfp, hcollect, log_started_eq, log_finished_eq]

theorem warn_lines_empty (c : Ctx) :
    (if c.has_heif then [] else
        (log c.ts "WARNING" "ffmpeg was found but may lack HEIC/HEIF support." []).map
          Event.out) = ([] : List Event) := by
  simp [log]

theorem convertCall_mem_runConversions (c : Ctx) (fp : String) (od : FsPath)
    (l : List FsPath) (f : FsPath) (hf : f ∈ l) :
    Event.convertCall (cmdFor c fp od f) f (destFor c od f) ∈ runConversions c fp od l := by
  induction l with
  | nil => cases hf
  | cons g rest ih =>
    rcases List.mem_cons.mp hf with rfl | hf2
    · simp [runConversions, convertEvents]
    · simp only [runConversions, List.mem_append]
      exact Or.inr (ih hf2)

theorem error_line_mem_runConversions (c : Ctx) (fp : String) (od : FsPath)
    (l : List FsPath) (f : FsPath) (hf : f ∈ l) (hfail : c.ok f = false) :
    Event.out (c.ts ++ " ERROR " ++ ("Failed to convert " ++ pathStr f ++ ": " ++ c.excMsg f))
      ∈ runConversions c fp od l := by
  induction l with
  | nil => cases hf
  | cons g rest ih =>
    rcases List.mem_cons.mp hf with rfl | hf2
    · simp [runConversions, convertEvents, hfail, log_failed_eq]
    · simp only [runConversions, List.mem_append]
      exact Or.inr (ih hf2)

theorem runConversions_filter_mkdir (c : Ctx) (fp : String) (od : FsPath)
    (l : List FsPath) :
    (runConversions c fp od l).filter Event.isMkdir = [] := by
  induction l with
  | nil => rfl
  | cons g rest ih =>
    simp only [runConversions, List.filter_append, ih, List.append_nil]
    cases hok : c.ok g <;>
      simp [convertEvents, hok, List.filter_append, Event.isMkdir, List.filter_map]

theorem convertCall_shape (c : Ctx) (fp : String) (od : FsPath) (l : List FsPath)
    (cmd : List String) (g d : FsPath)
    (h : Event.convertCall cmd g d ∈ runConversions c fp od l) :
    g ∈ l ∧ cmd = cmdFor c fp od g ∧ d = destFor c od g := by
  induction l with
  | nil => cases h
  | cons a rest ih =>
    simp only [runConversions, List.mem_append] at h
    rcases h with h2 | h2
    · have h3 : cmd = cmdFor c fp od a ∧ g = a ∧ d = destFor c od a := by
        cases hok : c.ok a <;> simp [convertEvents, hok] at h2 <;> tauto
      rcases h3 with ⟨hcmd, rfl, hd⟩
      exact ⟨List.mem_cons_self g rest, hcmd, hd⟩
    · rcases ih h2 with ⟨hmem, hcmd, hd⟩
      exact ⟨List.mem_cons_of_mem a hmem, hcmd, hd⟩

/-- Claim C1: for a directory input (an existing path that is not a regular
file), the discovery set is exactly the set of regular files strictly under
it, at any depth, whose final name matches the case-sensitive pattern
`*.heic`; non-matching files and subdirectories contribute no entries. -/
theorem collect_dir_spec (fs : FS) (input_path : FsPath)
    (hdir : fs.dirs.contains input_path = true)
    (hnotfile : fs.files.contains input_path = false) (p : FsPath) :
    p ∈ collect_heic_files fs input_path ↔
      p ∈ fs.files ∧ strictlyUnder input_path p = true ∧ matchesHeic p = true := by
  have hnf : input_path ∉ fs.files := by simpa using hnotfile
  simp [collect_heic_files, hnf, rglobHeic, List.mem_filter, List.mem_append]

/-- Witness for C1 on the directory `d` holding `a.heic`, `b.HEIC` and
`c.txt`. -/
theorem collect_dir_spec_witness :
    ["d", "a.heic"] ∈ collect_heic_files exampleFS ["d"] ↔
      ["d", "a.heic"] ∈ exampleFS.files ∧ strictlyUnder ["d"] ["d", "a.heic"] = true ∧
        matchesHeic ["d", "a.heic"] = true :=
  collect_dir_spec exampleFS ["d"] (by decide) (by decide) ["d", "a.heic"]

/-- Claim C2: for an input that is an existing regular file, whatever its
extension, the discovery set is exactly the singleton of that file — no
extension filter is applied on this branch. -/
theorem collect_single_file_spec (fs : FS) (input_path : FsPath)
    (hfile : fs.files.contains input_path = true) :
    collect_heic_files fs input_path = [input_path] := by
  simp only [collect_heic_files, hfile, if_true]

/-- Witness for C2 on the non-HEIC regular file `d/c.txt`. -/
theorem collect_single_file_spec_witness :
    collect_heic_files exampleFS ["d", "c.txt"] = [["d", "c.txt"]] :=
  collect_single_file_spec exampleFS ["d", "c.txt"] (by decide)

/-- Claim C3 (refuting evaluation): a logger call carrying a message but no
substitution arguments — here the exact capability-warning call of `main` —
prints no line at all, because the `print` sits inside the `if args:`
guard. -/
theorem log_no_args_silent :
    log "2026-02-03T10:00:00" "WARNING"
      "ffmpeg was found but may lack HEIC/HEIF support." [] = [] := rfl

/-- Claim C4: when the capability probe reports no HEIF/HEIC support the
run continues — the exit status is 0 and every discovered file still gets a
conversion subprocess — but the warning call, having no substitution
arguments, prints nothing. -/
theorem probe_warning_silent_run_continues (c : Ctx) (fp : String)
    (hfp : c.ffmpeg_path = some fp) (hheif : c.has_heif = false) :
    (run c).2 = 0 ∧
    log c.ts "WARNING" "ffmpeg was found but may lack HEIC/HEIF support." [] = [] ∧
    ∀ f ∈ collect_heic_files c.fs c.input_path,
      ∃ cmd dest, Event.convertCall cmd f dest ∈ (run c).1 := by
  refine ⟨run_snd_eq_zero c fp hfp, rfl, ?_⟩
  intro f hf
  rcases h : collect_heic_files c.fs c.input_path with _ | ⟨f0, rest⟩
  · rw [h] at hf; cases hf
  · rw [h] at hf
    refine ⟨cmdFor c fp (prepare_output_dir f0) f,
      destFor c (prepare_output_dir f0) f, ?_⟩
    rw [run_trace_cons c fp f0 rest hfp h]
    apply List.mem_cons_of_mem
    apply List.mem_append_right
    apply List.mem_cons_of_mem
    apply List.mem_cons_of_mem
    apply List.mem_append_left
    exact convertCall_mem_runConversions c fp _ _ f hf

/-- Witness for C4 on a two-file run whose probe found no marker. -/
theorem probe_warning_silent_run_continues_witness :
    (run twoCtx).2 = 0 ∧
    log twoCtx.ts "WARNING" "ffmpeg was found but may lack HEIC/HEIF support." [] = [] ∧
    ∀ f ∈ collect_heic_files twoCtx.fs twoCtx.input_path,
      ∃ cmd dest, Event.convertCall cmd f dest ∈ (run twoCtx).1 :=
  probe_warning_silent_run_continues twoCtx "ffmpeg-path" rfl rfl

/-- Counterexample to C5 as stated: a run with an empty discovery set whose
trace nevertheless holds an external-tool invocation, the capability probe
(`ffmpeg -codecs`), which `main` runs before discovery. -/
theorem empty_discovery_probe_invocation :
    collect_heic_files emptyCtx.fs emptyCtx.input_path = [] ∧
    Event.probeCall ∈ (run emptyCtx).1 := by decide

/-- Claim C5 as amended: a run that reaches discovery (the converter was
found) and discovers nothing prints the informational message, exits 0,
creates no directory and starts no conversion subprocess; only the
capability probe has touched the external tool. -/
theorem empty_discovery_clean_exit (c : Ctx) (fp : String)
    (hfp : c.ffmpeg_path = some fp)
    (hempty : collect_heic_files c.fs c.input_path = []) :
    (run c).2 = 0 ∧
    Event.out "No HEIC files found to convert." ∈ (run c).1 ∧
    (∀ p a b, Event.mkdirCall p a b ∉ (run c).1) ∧
    (∀ cmd f d, Event.convertCall cmd f d ∉ (run c).1) := by
  simp [run, hfp, hempty, log]

/-- Witness for the amended C5 on a directory holding only `c.txt`. -/
theorem empty_discovery_clean_exit_witness :
    (run emptyCtx).2 = 0 ∧
    Event.out "No HEIC files found to convert." ∈ (run emptyCtx).1 ∧
    (∀ p a b, Event.mkdirCall p a b ∉ (run emptyCtx).1) ∧
    (∀ cmd f d, Event.convertCall cmd f d ∉ (run emptyCtx).1) :=
  empty_discovery_clean_exit emptyCtx "ffmpeg-path" rfl rfl

/-- Claim C6: a failing conversion is logged at ERROR level with the file
and the failure detail, every discovered file still gets its conversion
subprocess, the exit status stays 0, and the finish marker is still
printed. -/
theorem conversion_failure_isolated (c : Ctx) (fp : String) (f0 : FsPath)
    (rest : List FsPath) (hfp : c.ffmpeg_path = some fp)
    (hcollect : collect_heic_files c.fs c.input_path = f0 :: rest)
    (f : FsPath) (hf : f ∈ f0 :: rest) (hfail : c.ok f = false) :
    (run c).2 = 0 ∧
    Event.out (c.ts ++ " ERROR " ++
        ("Failed to convert " ++ pathStr f ++ ": " ++ c.excMsg f)) ∈ (run c).1 ∧
    (∀ g ∈ f0 :: rest,
      Event.convertCall (cmdFor c fp (prepare_output_dir f0) g) g
        (destFor c (prepare_output_dir f0) g) ∈ (run c).1) ∧
    Event.out (c.ts ++ " INFO " ++ ("=== Conversion finished: " ++ c.ts ++ " ==="))
      ∈ (run c).1 := by
  refine ⟨run_snd_eq_zero c fp hfp, ?_, ?_, ?_⟩
  · rw [run_trace_cons c fp f0 rest hfp hcollect]
    apply List.mem_cons_of_mem
    apply List.mem_append_right
    apply List.mem_cons_of_mem
    apply List.mem_cons_of_mem
    apply List.mem_append_left
    exact error_line_mem_runConversions c fp _ _ f hf hfail
  · intro g hg
    rw [run_trace_cons c fp f0 rest hfp hcollect]
    apply List.mem_cons_of_mem
    apply List.mem_append_right
    apply List.mem_cons_of_mem
    apply List.mem_cons_of_mem
    apply List.mem_append_left
    exact convertCall_mem_runConversions c fp _ _ g hg
  · rw [run_trace_cons c fp f0 rest hfp hcollect]
    apply List.mem_cons_of_mem
    apply List.mem_append_right
    apply List.mem_cons_of_mem
    apply List.mem_cons_of_mem
    apply List.mem_append_right
    exact List.mem_singleton.mpr rfl

/-- Witness for C6: the first of two files fails, both are attempted, the
run exits 0 and the finish marker is printed. -/
theorem conversion_failure_isolated_witness :
    (run twoCtx).2 = 0 ∧
    Event.out (twoCtx.ts ++ " ERROR " ++
        ("Failed to convert " ++ pathStr ["d", "a.heic"] ++ ": " ++
          twoCtx.excMsg ["d", "a.heic"])) ∈ (run twoCtx).1 ∧
    (∀ g ∈ [["d", "a.heic"], ["d", "b.heic"]],
      Event.convertCall (cmdFor twoCtx "ffmpeg-path" (prepare_output_dir ["d", "a.heic"]) g)
        g (destFor twoCtx (prepare_output_dir ["d", "a.heic"]) g) ∈ (run twoCtx).1) ∧
    Event.out (twoCtx.ts ++ " INFO " ++ ("=== Conversion finished: " ++ twoCtx.ts ++ " ==="))
      ∈ (run twoCtx).1 :=
  conversion_failure_isolated twoCtx "ffmpeg-path" ["d", "a.heic"] [["d", "b.heic"]]
    rfl (by decide) ["d", "a.heic"] (by decide) (by decide)

/-- Claim C7: with a non-empty discovery set the output directory is
exactly `parent(first discovered file)/converted`; the one and only
directory creation of the run targets it, with `parents` and `exist_ok`
both set (recursive, idempotent, pre-existing directory reused); and every
conversion destination lies directly under it. -/
theorem output_dir_spec (c : Ctx) (fp : String) (f0 : FsPath) (rest : List FsPath)
    (hfp : c.ffmpeg_path = some fp)
    (hcollect : collect_heic_files c.fs c.input_path = f0 :: rest) :
    prepare_output_dir f0 = f0.dropLast ++ ["converted"] ∧
    (run c).1.filter Event.isMkdir
      = [Event.mkdirCall (prepare_output_dir f0) true true] ∧
    (∀ cmd g d, Event.convertCall cmd g d ∈ (run c).1 →
      d.dropLast = prepare_output_dir f0 ∧ g ∈ f0 :: rest) := by
  refine ⟨rfl, ?_, ?_⟩
  · rw [run_trace_cons c fp f0 rest hfp hcollect, warn_lines_empty]
    simp [List.filter_append, Event.isMkdir, runConversions_filter_mkdir]
  · intro cmd g d hmem
    rw [run_trace_cons c fp f0 rest hfp hcollect, warn_lines_empty] at hmem
    simp only [List.nil_append, List.mem_cons, List.mem_append, List.mem_singleton,
      reduceCtorEq, false_or, or_false] at hmem
    rcases hmem with hmem | hmem
    · rcases convertCall_shape c fp _ _ cmd g d hmem with ⟨hg, _, hd⟩
      subst hd
      exact ⟨by simp [destFor], hg⟩
    · cases hmem

/-- Witness for C7 on the two-file run. -/
theorem output_dir_spec_witness :
    prepare_output_dir ["d", "a.heic"]
      = (["d", "a.heic"] : FsPath).dropLast ++ ["converted"] ∧
    (run twoCtx).1.filter Event.isMkdir
      = [Event.mkdirCall (prepare_output_dir ["d", "a.heic"]) true true] ∧
    (∀ cmd g d, Event.convertCall cmd g d ∈ (run twoCtx).1 →
      d.dropLast = prepare_output_dir ["d", "a.heic"] ∧
        g ∈ [["d", "a.heic"], ["d", "b.heic"]]) :=
  output_dir_spec twoCtx "ffmpeg-path" ["d", "a.heic"] [["d", "b.heic"]] rfl (by decide)

/-- Claim C8: when the converter binary is absent from the search path the
whole run is the explanatory stderr message and exit status 1 — no probe,
no discovery, no directory creation, no conversion has happened. -/
theorem missing_ffmpeg_fatal (c : Ctx) (hnone : c.ffmpeg_path = none) :
    run c = ([Event.errOut "ffmpeg not found on PATH. Install ffmpeg and try again."], 1) := by
  simp [run, hnone]

/-- Witness for C8. -/
theorem missing_ffmpeg_fatal_witness :
    run noFfmpegCtx
      = ([Event.errOut "ffmpeg not found on PATH. Install ffmpeg and try again."], 1) :=
  missing_ffmpeg_fatal noFfmpegCtx rfl

/-- Claim C9: the constructed command suppresses the banner, sets loglevel
error, passes the force-overwrite flag, names the source after the input
flag, and ends with the destination; exactly the jpg variant inserts the
video-codec selection `libx264` and pixel format `yuv420p` before the
destination, while the png variant carries no codec selection. -/
theorem convert_cmd_spec (f s d : String) :
    convert_cmd f s d "png"
      = [f, "-hide_banner", "-loglevel", "error", "-y", "-i", s, d] ∧
    convert_cmd f s d "jpg"
      = [f, "-hide_banner", "-loglevel", "error", "-y", "-i", s,
          "-c:v", "libx264", "-pix_fmt", "yuv420p", d] ∧
    (∀ ext, (convert_cmd f s d ext).getLast? = some d) := by
  refine ⟨rfl, rfl, fun ext => ?_⟩
  unfold convert_cmd
  split <;> rfl

/-- Witness for C9 at concrete paths. -/
theorem convert_cmd_spec_witness :
    convert_cmd "F" "S" "D" "png"
      = ["F", "-hide_banner", "-loglevel", "error", "-y", "-i", "S", "D"] ∧
    convert_cmd "F" "S" "D" "jpg"
      = ["F", "-hide_banner", "-loglevel", "error", "-y", "-i", "S",
          "-c:v", "libx264", "-pix_fmt", "yuv420p", "D"] ∧
    (∀ ext, (convert_cmd "F" "S" "D" ext).getLast? = some "D") :=
  convert_cmd_spec "F" "S" "D"

/-- Claim C10: the argument parser accepts exactly the lowercase values
`png` and `jpg`, rejecting anything else with the usage-error exit status
2, and the subsequent lower-casing of an accepted value is a no-op. -/
theorem parse_output_spec (raw : String) :
    (raw ∈ output_choices →
      parse_args_output raw = Except.ok raw ∧ lowerStr raw = raw) ∧
    (raw ∉ output_choices → parse_args_output raw = Except.error 2) := by
  constructor
  · intro hmem
    have hlower : lowerStr raw = raw := by
      rcases List.mem_cons.mp hmem with h | h
      · subst h; decide
      · have h2 := List.mem_singleton.mp h
        subst h2; decide
    exact ⟨by simp [parse_args_output, hmem, hlower], hlower⟩
  · intro hmem
    simp [parse_args_output, hmem]

/-- Witness for C10: the uppercase value is a usage error; the lowercase
value is accepted and stored unchanged. -/
theorem parse_output_spec_witness :
    parse_args_output "PNG" = Except.error 2 ∧
    (parse_args_output "png" = Except.ok "png" ∧ lowerStr "png" = "png") :=
  ⟨(parse_output_spec "PNG").2 (by decide), (parse_output_spec "png").1 (by decide)⟩

end FFheic
